import Mathlib

/-!
Verification of the oracle/dispatch core of the `sds-iss-tracker`
repository: the record codec (`src/lib/iss-encoding.ts`, shipped in the
repo as part of `src/lib/sdk.ts`), the publisher loop
(`src/app/api/cron/sync-iss/route.ts` and the standalone oracle service),
the consumer subscription handler and trail cache
(`src/hooks/useISSLocations.ts`), and the manual-trigger script
(`src/scripts/test-oracle.ts`).

Machine integers are embedded as `Nat`/`Int` with explicit `% 2 ^ w`
where wrap-around matters; fallible operations return `Except`.
Coordinates that the TypeScript code holds as parsed floating-point
degree values are embedded as exact rationals (`ℚ`); every property
proved below is arithmetic-identity-level and does not depend on
rounding of binary floats.
-/

set_option maxRecDepth 8000

namespace ISSTracker

/-! ## Byte-level helpers

The codec in `iss-encoding.ts` delegates to viem's
`encodeAbiParameters` / `decodeAbiParameters` over a head-only (static)
parameter list, so every field occupies one 32-byte big-endian word.
`natToBytesBE n 32` is the 32-byte big-endian representation of a word,
`bytesToNatBE` its inverse.
-/

/-- Big-endian byte representation of `n`, `k` bytes wide (low `8 * k`
bits of `n`). -/
def natToBytesBE : Nat → Nat → List Nat
  | _, 0 => []
  | n, k + 1 => natToBytesBE (n / 256) k ++ [n % 256]

/-- Read a big-endian byte list back into a `Nat`. -/
def bytesToNatBE (bs : List Nat) : Nat :=
  bs.foldl (fun a b => a * 256 + b) 0

/-- Concatenate a list of 256-bit words into their 32-byte big-endian
encodings, as viem lays out a static (head-only) parameter tuple. -/
def wordsToBytes (ws : List Nat) : List Nat :=
  ws.foldr (fun w acc => natToBytesBE w 32 ++ acc) []

/-- The `i`-th 32-byte word of an encoded byte string, as viem's decode
cursor reads it (fixed offset `32 * i`). -/
def readWord (bs : List Nat) (i : Nat) : Nat :=
  bytesToNatBE ((bs.drop (32 * i)).take 32)

/-- Two's-complement representation of a signed integer in a 256-bit
word, as `encodeAbiParameters` stores an `int32` (sign-extended). -/
def toUint256 (i : Int) : Nat :=
  (i % (2 : Int) ^ 256).toNat

/-- Signed reading of a 256-bit word, as viem's `decodeAbiParameters`
interprets an `intN` slot (two's complement). -/
def toSigned256 (w : Nat) : Int :=
  if w < 2 ^ 255 then (w : Int) else (w : Int) - 2 ^ 256

theorem length_natToBytesBE (n k : Nat) : (natToBytesBE n k).length = k := by
  induction k generalizing n with
  | zero => rfl
  | succ k ih => simp [natToBytesBE, ih]

theorem bytesToNatBE_append_singleton (xs : List Nat) (c : Nat) :
    bytesToNatBE (xs ++ [c]) = bytesToNatBE xs * 256 + c := by
  simp only [bytesToNatBE, List.foldl_append, List.foldl_cons, List.foldl_nil]

theorem bytesToNatBE_natToBytesBE (k n : Nat) :
    bytesToNatBE (natToBytesBE n k) = n % 256 ^ k := by
  induction k generalizing n with
  | zero => simp [natToBytesBE, bytesToNatBE, Nat.mod_one]
  | succ k ih =>
    rw [natToBytesBE, bytesToNatBE_append_singleton, ih]
    have h256 : 256 ^ (k + 1) = 256 * 256 ^ k := by ring
    rw [h256, Nat.mod_mul]
    ring

theorem length_wordsToBytes (ws : List Nat) :
    (wordsToBytes ws).length = 32 * ws.length := by
  induction ws with
  | nil => rfl
  | cons w ws ih =>
    simp [wordsToBytes] at ih ⊢
    simp [length_natToBytesBE, ih]
    ring

theorem wordsToBytes_cons (w : Nat) (ws : List Nat) :
    wordsToBytes (w :: ws) = natToBytesBE w 32 ++ wordsToBytes ws := by
  simp [wordsToBytes]

theorem readWord_wordsToBytes (ws : List Nat) (extra : List Nat) :
    ∀ i, (h : i < ws.length) →
      readWord (wordsToBytes ws ++ extra) i = ws.get ⟨i, h⟩ % 2 ^ 256 := by
  induction ws with
  | nil => intro i h; exact absurd h (by simp)
  | cons w ws ih =>
    intro i h
    have hlen : (natToBytesBE w 32).length = 32 := length_natToBytesBE w 32
    have hsplit : wordsToBytes (w :: ws) ++ extra =
        natToBytesBE w 32 ++ (wordsToBytes ws ++ extra) := by
      rw [wordsToBytes_cons, List.append_assoc]
    match i with
    | 0 =>
      have h0 : readWord (wordsToBytes (w :: ws) ++ extra) 0 =
          bytesToNatBE (natToBytesBE w 32) := by
        simp only [readWord, Nat.mul_zero, List.drop_zero, hsplit]
        rw [List.take_left' hlen]
      rw [h0, bytesToNatBE_natToBytesBE]
      norm_num
    | i + 1 =>
      have hdrop : (wordsToBytes (w :: ws) ++ extra).drop (32 * (i + 1)) =
          (wordsToBytes ws ++ extra).drop (32 * i) := by
        rw [hsplit]
        have h32 : 32 * (i + 1) = 32 + 32 * i := by ring
        rw [h32, ← List.drop_drop, List.drop_left' hlen]
      have hi : i < ws.length := by simpa using Nat.lt_of_succ_lt_succ h
      have hrec := ih i hi
      simp only [readWord] at hrec ⊢
      rw [hdrop, hrec]
      rfl

theorem toSigned256_toUint256 (i : Int) (hlo : -(2 ^ 255) ≤ i)
    (hhi : i < 2 ^ 255) : toSigned256 (toUint256 i) = i := by
  simp only [toSigned256, toUint256]
  split_ifs with h
  · omega
  · omega

theorem toUint256_lt (i : Int) : toUint256 i < 2 ^ 256 := by
  simp only [toUint256]
  omega

/-! ## Record codec (`src/lib/iss-encoding.ts`)

The wire schema is the GPS parent schema concatenated with the ISS child
schema (`src/lib/constants.ts`):
`uint64 timestamp, int32 latitude, int32 longitude, int32 altitude,
uint32 accuracy, bytes32 entityId, uint256 nonce` then
`uint32 velocity, uint8 visibility`.
All nine parameters are static ABI types, so `encodeAbiParameters` packs
each into one 32-byte big-endian word (signed values sign-extended via
two's complement) and `decodeAbiParameters` reads the word back at fixed
offset `32 * i`. viem's decoder errors when the data is too short for
the cursor read (`AbiDecodingDataSizeTooSmallError` /
`AbiDecodingZeroDataError`); it has no error for oversized data and
ignores trailing bytes. `encodeAbiParameters` rejects out-of-range
values, so the total encoder below is only ever applied under the
`ValidFields` ranges where the two agree.
-/

/-- The raw field tuple of a position record, exactly the nine ABI slots
of the inherited GPS + ISS schema. `entityId` is the 32-byte identifier
read as a big-endian natural. -/
structure ISSFields where
  timestamp : Nat
  latitude : Int
  longitude : Int
  altitude : Int
  accuracy : Nat
  entityId : Nat
  nonce : Nat
  velocity : Nat
  visibility : Nat
  deriving DecidableEq, Repr

/-- Word list of a record in declared schema order, mirroring the
parameter list passed to `encodeAbiParameters` in `encodeISSLocation`. -/
def fieldWords (f : ISSFields) : List Nat :=
  [f.timestamp, toUint256 f.latitude, toUint256 f.longitude,
    toUint256 f.altitude, f.accuracy, f.entityId, f.nonce,
    f.velocity, f.visibility]

/-- Embedding of the `encodeAbiParameters` call in `encodeISSLocation`:
nine 32-byte words, 288 bytes total. -/
def encodeAbiParametersISS (f : ISSFields) : List Nat :=
  wordsToBytes (fieldWords f)

/-- Fixed total record size in bytes: nine 32-byte slots. -/
def EXPECTED_RECORD_BYTES : Nat := 288

/-- Decode failure, realised in the source by the viem decoding errors
(`AbiDecodingDataSizeTooSmallError`, `AbiDecodingZeroDataError`);
the spec names this failure `MalformedRecordError`. -/
inductive DecodeError where
  | malformedRecord
  deriving DecidableEq, Repr

/-- Embedding of the `decodeAbiParameters` call in `decodeISSLocation`:
the cursor reads nine words at fixed offsets, so any input shorter than
288 bytes fails; trailing bytes beyond offset 288 are never read. -/
def decodeAbiParametersISS (bs : List Nat) : Except DecodeError ISSFields :=
  if bs.length < EXPECTED_RECORD_BYTES then .error .malformedRecord
  else .ok
    { timestamp := readWord bs 0
      latitude := toSigned256 (readWord bs 1)
      longitude := toSigned256 (readWord bs 2)
      altitude := toSigned256 (readWord bs 3)
      accuracy := readWord bs 4
      entityId := readWord bs 5
      nonce := readWord bs 6
      velocity := readWord bs 7
      visibility := readWord bs 8 }

/-- Validity ranges of the nine schema slots (`uint64`, `int32 × 3`,
`uint32`, `bytes32`, `uint256`, `uint32`, `uint8`). -/
def ValidFields (f : ISSFields) : Prop :=
  f.timestamp < 2 ^ 64 ∧
  -(2 ^ 31) ≤ f.latitude ∧ f.latitude < 2 ^ 31 ∧
  -(2 ^ 31) ≤ f.longitude ∧ f.longitude < 2 ^ 31 ∧
  -(2 ^ 31) ≤ f.altitude ∧ f.altitude < 2 ^ 31 ∧
  f.accuracy < 2 ^ 32 ∧
  f.entityId < 2 ^ 256 ∧
  f.nonce < 2 ^ 256 ∧
  f.velocity < 2 ^ 32 ∧
  f.visibility < 2 ^ 8

instance (f : ISSFields) : Decidable (ValidFields f) := by
  unfold ValidFields
  infer_instance

theorem length_encodeAbiParametersISS (f : ISSFields) :
    (encodeAbiParametersISS f).length = 288 := by
  simp [encodeAbiParametersISS, fieldWords, length_wordsToBytes]

theorem readWord_encode (f : ISSFields) (extra : List Nat) (i : Nat)
    (h : i < 9) :
    readWord (encodeAbiParametersISS f ++ extra) i =
      (fieldWords f).get ⟨i, by simp [fieldWords]; omega⟩ % 2 ^ 256 :=
  readWord_wordsToBytes (fieldWords f) extra i (by simp [fieldWords]; omega)

/-- Core round-trip: decoding any byte string that starts with the
encoding of a valid record recovers the record exactly, whatever (if
anything) trails it. -/
theorem decode_encode_extra (f : ISSFields) (hf : ValidFields f)
    (extra : List Nat) :
    decodeAbiParametersISS (encodeAbiParametersISS f ++ extra) = .ok f := by
  obtain ⟨ht, hla1, hla2, hlo1, hlo2, hal1, hal2, hac, hen, hno, hve, hvi⟩ := hf
  have hlen : (encodeAbiParametersISS f ++ extra).length = 288 + extra.length := by
    simp [length_encodeAbiParametersISS]
  have hge : ¬ ((encodeAbiParametersISS f ++ extra).length <
      EXPECTED_RECORD_BYTES) := by
    simp [hlen, EXPECTED_RECORD_BYTES]
  rw [decodeAbiParametersISS, if_neg hge]
  have hs : (2 : Int) ^ 31 ≤ 2 ^ 255 := by norm_num
  have r0 := readWord_encode f extra 0 (by omega)
  have r1 := readWord_encode f extra 1 (by omega)
  have r2 := readWord_encode f extra 2 (by omega)
  have r3 := readWord_encode f extra 3 (by omega)
  have r4 := readWord_encode f extra 4 (by omega)
  have r5 := readWord_encode f extra 5 (by omega)
  have r6 := readWord_encode f extra 6 (by omega)
  have r7 := readWord_encode f extra 7 (by omega)
  have r8 := readWord_encode f extra 8 (by omega)
  simp only [fieldWords, List.get] at r0 r1 r2 r3 r4 r5 r6 r7 r8
  rw [r0, r1, r2, r3, r4, r5, r6, r7, r8]
  have m0 : f.timestamp % 2 ^ 256 = f.timestamp := Nat.mod_eq_of_lt (by omega)
  have m1 : toUint256 f.latitude % 2 ^ 256 = toUint256 f.latitude :=
    Nat.mod_eq_of_lt (toUint256_lt _)
  have m2 : toUint256 f.longitude % 2 ^ 256 = toUint256 f.longitude :=
    Nat.mod_eq_of_lt (toUint256_lt _)
  have m3 : toUint256 f.altitude % 2 ^ 256 = toUint256 f.altitude :=
    Nat.mod_eq_of_lt (toUint256_lt _)
  have m4 : f.accuracy % 2 ^ 256 = f.accuracy := Nat.mod_eq_of_lt (by omega)
  have m5 : f.entityId % 2 ^ 256 = f.entityId := Nat.mod_eq_of_lt (by omega)
  have m6 : f.nonce % 2 ^ 256 = f.nonce := Nat.mod_eq_of_lt (by omega)
  have m7 : f.velocity % 2 ^ 256 = f.velocity := Nat.mod_eq_of_lt (by omega)
  have m8 : f.visibility % 2 ^ 256 = f.visibility := Nat.mod_eq_of_lt (by omega)
  rw [m0, m1, m2, m3, m4, m5, m6, m7, m8]
  rw [toSigned256_toUint256 f.latitude (by omega) (by omega),
    toSigned256_toUint256 f.longitude (by omega) (by omega),
    toSigned256_toUint256 f.altitude (by omega) (by omega)]

/-! ## Domain layer of the codec

`encodeISSLocation(apiData, nonce)` derives the nine raw fields from the
feed observation — parsed degree coordinates, the source timestamp in
seconds, constants for altitude / accuracy / velocity, and a visibility
value computed by `calculateVisibility` from the CURRENT wall-clock UTC
hour — then calls `encodeAbiParameters`. `decodeISSLocation` calls
`decodeAbiParameters` and then builds the domain object, rescaling the
fixed-point coordinates back to degrees at the codec/domain boundary.
The wall clock is an explicit `hourUTC` argument here, since the
TypeScript reads `new Date().getUTCHours()`.
-/

/-- The `"ISS"` entity identifier, zero-padded to 32 bytes
(`src/lib/constants.ts`), read as a big-endian natural. -/
def ISS_ENTITY_ID : Nat :=
  0x4953530000000000000000000000000000000000000000000000000000000000

/-- Trail capacity of the consumer cache (`MAX_TRAIL_LENGTH` in
`src/hooks/useISSLocations.ts`). -/
def MAX_TRAIL_LENGTH : Nat := 100

set_option linter.unusedVariables false in
/-- Embedding of `calculateVisibility(lat, lon)`: the sun's longitude is
approximated from the current UTC hour (15 degrees per hour, 0 at noon),
and the station is on the day side when its longitude is within 90
degrees of it. Returns the `Visibility` codes 2 (day side) or 3 (night
side). The `lat` argument is accepted and ignored, as in the source. -/
def calculateVisibility (lat lon : ℚ) (hourUTC : Nat) : Nat :=
  let sunLongitude : ℚ := ((hourUTC : ℚ) - 12) * 15
  let longitudeDiff : ℚ := |lon - sunLongitude|
  if longitudeDiff < 90 ∨ longitudeDiff > 270 then 2 else 3

/-- Field derivation inside `encodeISSLocation`: timestamp converted to
milliseconds, coordinates scaled to micro-degrees and rounded
(`Math.round`, i.e. round half towards positive infinity), constant
altitude 408000 m, accuracy 1000 m, velocity 27600 km/h, and visibility
from the wall clock. -/
def issFieldsOf (latDeg lonDeg : ℚ) (timestampSec nonce hourUTC : Nat) :
    ISSFields :=
  { timestamp := timestampSec * 1000
    latitude := round (latDeg * 1000000)
    longitude := round (lonDeg * 1000000)
    altitude := 408000
    accuracy := 1000
    entityId := ISS_ENTITY_ID
    nonce := nonce
    velocity := 27600
    visibility := calculateVisibility latDeg lonDeg hourUTC }

/-- Embedding of `encodeISSLocation(apiData, nonce)` as a function of
the parsed observation, the nonce, and the wall-clock hour. -/
def encodeISSLocation (latDeg lonDeg : ℚ) (timestampSec nonce hourUTC : Nat) :
    List Nat :=
  encodeAbiParametersISS (issFieldsOf latDeg lonDeg timestampSec nonce hourUTC)

/-- The decoded domain object (`ISSLocation` in `src/types/iss.ts`):
coordinates are rescaled to degrees at the codec/domain boundary
(exactly, as rationals). -/
structure ISSLocation where
  timestamp : Nat
  latitude : ℚ
  longitude : ℚ
  altitude : Int
  accuracy : Nat
  entityId : Nat
  nonce : Nat
  velocity : Nat
  visibility : Nat
  deriving DecidableEq, Repr

/-- The object construction at the end of `decodeISSLocation`: divide
the fixed-point coordinates by 1,000,000, keep everything else raw. -/
def toDomain (f : ISSFields) : ISSLocation :=
  { timestamp := f.timestamp
    latitude := (f.latitude : ℚ) / 1000000
    longitude := (f.longitude : ℚ) / 1000000
    altitude := f.altitude
    accuracy := f.accuracy
    entityId := f.entityId
    nonce := f.nonce
    velocity := f.velocity
    visibility := f.visibility }

/-- Embedding of `decodeISSLocation(data)`: ABI-decode the nine slots,
then build the domain object. -/
def decodeISSLocation (bs : List Nat) : Except DecodeError ISSLocation :=
  (decodeAbiParametersISS bs).map toDomain

theorem calculateVisibility_cases (lat lon : ℚ) (hourUTC : Nat) :
    calculateVisibility lat lon hourUTC = 2 ∨
      calculateVisibility lat lon hourUTC = 3 := by
  simp only [calculateVisibility]
  split_ifs <;> simp

theorem calculateVisibility_lt (lat lon : ℚ) (hourUTC : Nat) :
    calculateVisibility lat lon hourUTC < 2 ^ 8 := by
  rcases calculateVisibility_cases lat lon hourUTC with h | h <;> rw [h] <;> norm_num

/-- Assumptions on a feed observation: coordinates inside the real
latitude/longitude ranges and a capture time well below the `uint64`
capacity (the real feed reports unix seconds, around `2 ^ 31`). -/
def ValidObservation (latDeg lonDeg : ℚ) (timestampSec : Nat) : Prop :=
  -90 ≤ latDeg ∧ latDeg ≤ 90 ∧ -180 ≤ lonDeg ∧ lonDeg ≤ 180 ∧
    timestampSec < 2 ^ 54

instance (latDeg lonDeg : ℚ) (timestampSec : Nat) :
    Decidable (ValidObservation latDeg lonDeg timestampSec) := by
  unfold ValidObservation
  infer_instance

theorem round_monotone {x y : ℚ} (h : x ≤ y) : round x ≤ round y := by
  rw [round_eq, round_eq]
  exact Int.floor_le_floor (by linarith)

theorem round_int_bound {x : ℚ} {n : Int} (hlo : -(n : ℚ) ≤ x)
    (hhi : x ≤ (n : ℚ)) : -n ≤ round x ∧ round x ≤ n := by
  constructor
  · have h1 : round (((-n : Int) : ℚ)) ≤ round x := by
      refine round_monotone ?_
      push_cast
      linarith
    rwa [round_intCast] at h1
  · have h2 : round x ≤ round (((n : Int) : ℚ)) := round_monotone hhi
    rwa [round_intCast] at h2

theorem validFields_issFieldsOf (latDeg lonDeg : ℚ) (timestampSec nonce hourUTC : Nat)
    (ho : ValidObservation latDeg lonDeg timestampSec) (hn : nonce < 2 ^ 256) :
    ValidFields (issFieldsOf latDeg lonDeg timestampSec nonce hourUTC) := by
  obtain ⟨hla1, hla2, hlo1, hlo2, hts⟩ := ho
  have hlat := round_int_bound (x := latDeg * 1000000) (n := 90000000)
    (by push_cast; linarith) (by push_cast; linarith)
  have hlon := round_int_bound (x := lonDeg * 1000000) (n := 180000000)
    (by push_cast; linarith) (by push_cast; linarith)
  refine ⟨?_, ?_, ?_, ?_, ?_, ?_, ?_, ?_, ?_, ?_, ?_, ?_⟩ <;>
    simp only [issFieldsOf, ISS_ENTITY_ID]
  · omega
  · have := hlat.1; omega
  · have := hlat.2; omega
  · have := hlon.1; omega
  · have := hlon.2; omega
  · norm_num
  · norm_num
  · norm_num
  · norm_num
  · exact hn
  · norm_num
  · exact calculateVisibility_lt latDeg lonDeg hourUTC

/-! ## Publisher loop (`src/app/api/cron/sync-iss/route.ts` and the
standalone oracle service `syncISS`)

One tick: query `totalPublisherDataForSchema` for the record count and
use it as the nonce, fetch one observation from the feed, encode it, and
publish record plus notification with a single `setAndEmitEvents` call.
Any failure — count query, feed fetch (non-200 status or non-success
sentinel), encode, ledger append, missing transaction hash — is caught
at the cycle boundary by the surrounding `try`/`catch`, logged, and
swallowed: the ledger is unchanged and nothing is published until the
next scheduled tick. The ledger is the only state; the process keeps no
counter (translated literally: `syncISS` takes the ledger state and the
tick's environment, nothing else).
-/

/-- A notification identifier; the oracle emits only
`ISSPositionUpdated` markers. -/
inductive EventId where
  | issPositionUpdated
  deriving DecidableEq, Repr

/-- The append-only store: records for the (ISS schema, publisher) pair
in append order, and the emitted notification events. -/
structure LedgerState where
  records : List (List Nat)
  events : List EventId
  deriving DecidableEq, Repr

/-- Ledger before any publish cycle has run. -/
def emptyLedger : LedgerState := ⟨[], []⟩

/-- One parsed feed observation (`iss_position` coordinates as parsed
degree values, capture timestamp in unix seconds). -/
structure Observation where
  latDeg : ℚ
  lonDeg : ℚ
  timestampSec : Nat
  deriving DecidableEq, Repr

/-- Environment of one tick: which step, if any, fails, and the
observation the feed returns when it responds. -/
inductive TickEnv where
  | countFailed
  | feedFailed
  | appendFailed (obs : Observation)
  | ok (obs : Observation)
  deriving DecidableEq, Repr

/-- Whether the tick's environment lets the whole cycle succeed. -/
def tickOk : TickEnv → Bool
  | .ok _ => true
  | _ => false

/-- One publisher cycle. On success the nonce is the ledger's current
record count, the encoded record and its `ISSPositionUpdated`
notification are appended together by the single `setAndEmitEvents`
call, and the assigned nonce is reported; on any failure the `catch`
swallows the error and the ledger is untouched. `hourUTC` is the wall
clock read by `calculateVisibility` during encoding. -/
def syncISS (st : LedgerState) (env : TickEnv) (hourUTC : Nat) :
    LedgerState × Option Nat :=
  match env with
  | .ok obs =>
      let nonce := st.records.length
      let encodedData :=
        encodeISSLocation obs.latDeg obs.lonDeg obs.timestampSec nonce hourUTC
      (⟨st.records ++ [encodedData], st.events ++ [.issPositionUpdated]⟩,
        some nonce)
  | _ => (st, none)

/-- Run the fixed-interval loop over a list of tick environments (each
with the wall-clock hour at that tick), collecting the sequence numbers
of the successful publishes in order. -/
def runTicks (st : LedgerState) : List (TickEnv × Nat) → LedgerState × List Nat
  | [] => (st, [])
  | (env, h) :: rest =>
      let s := syncISS st env h
      let r := runTicks s.1 rest
      (r.1, s.2.toList ++ r.2)

/-- Number of successful ticks in a schedule. -/
def countOk (ticks : List (TickEnv × Nat)) : Nat :=
  ticks.countP (fun t => tickOk t.1)

/-- The records a schedule appends when the ledger already holds `k`
records: one encoded record per successful tick, with consecutive
nonces starting at `k`. -/
def appendedRecords (k : Nat) : List (TickEnv × Nat) → List (List Nat)
  | [] => []
  | (TickEnv.ok obs, h) :: rest =>
      encodeISSLocation obs.latDeg obs.lonDeg obs.timestampSec k h ::
        appendedRecords (k + 1) rest
  | (_, _) :: rest => appendedRecords k rest

theorem syncISS_failure (st : LedgerState) (env : TickEnv) (h : Nat)
    (hfail : tickOk env = false) : syncISS st env h = (st, none) := by
  cases env with
  | ok obs => simp [tickOk] at hfail
  | countFailed => rfl
  | feedFailed => rfl
  | appendFailed obs => rfl

theorem runTicks_characterisation (ticks : List (TickEnv × Nat)) :
    ∀ st : LedgerState,
      runTicks st ticks =
        (⟨st.records ++ appendedRecords st.records.length ticks,
            st.events ++ List.replicate (countOk ticks) .issPositionUpdated⟩,
          List.range' st.records.length (countOk ticks)) := by
  induction ticks with
  | nil => intro st; simp [runTicks, appendedRecords, countOk]
  | cons t rest ih =>
    intro st
    obtain ⟨env, h⟩ := t
    cases env with
    | ok obs =>
      simp only [runTicks, syncISS, ih]
      simp [countOk, List.countP_cons, tickOk, appendedRecords, Nat.one_add,
        List.replicate_succ, List.range'_succ]
    | countFailed =>
      simp only [runTicks, syncISS, ih]
      simp [countOk, List.countP_cons, tickOk, appendedRecords]
    | feedFailed =>
      simp only [runTicks, syncISS, ih]
      simp [countOk, List.countP_cons, tickOk, appendedRecords]
    | appendFailed obs =>
      simp only [runTicks, syncISS, ih]
      simp [countOk, List.countP_cons, tickOk, appendedRecords]

/-- Step relation of the publisher: the store starts empty and every
state change is one `syncISS` cycle (`setAndEmitEvents` is the only
write the publisher code contains — there is no bare-write call). -/
inductive Reachable : LedgerState → Prop where
  | init : Reachable emptyLedger
  | tick (st : LedgerState) (env : TickEnv) (h : Nat) :
      Reachable st → Reachable (syncISS st env h).1

/-! ## Consumer side (`src/hooks/useISSLocations.ts`)

The subscription is opened with a single bundled `ethCall` encoding
`getLastPublishedDataForSchema(ISS_SCHEMA_ID, PUBLISHER_ADDRESS)` — the
store-side "read latest" — so each notification exchange already carries
the new record. The `onData` handler decodes the bundled result, drops
duplicates by nonce, appends to the trail and truncates it to the last
`MAX_TRAIL_LENGTH` entries (`Array.prototype.slice(-100)`), then invokes
the consumer callback; it performs no store query of its own. The
history catch-up (`fetchInitialLocations`) filters out any decoded
record with latitude 0, longitude 0, or a non-positive timestamp before
returning.
-/

/-- JavaScript `xs.slice(-n)`: the last `min n xs.length` elements. -/
def sliceLast (n : Nat) (xs : List α) : List α :=
  xs.drop (xs.length - n)

/-- The dedup-and-bound step of the `onData` handler: if a record with
the same nonce is already in the trail, leave it unchanged; otherwise
append and keep only the last `MAX_TRAIL_LENGTH` entries. -/
def acceptLocation (trail : List ISSLocation) (loc : ISSLocation) :
    List ISSLocation :=
  if trail.any (fun l => l.nonce == loc.nonce) then trail
  else sliceLast MAX_TRAIL_LENGTH (trail ++ [loc])

/-- Read queries the consumer can issue against the store
(`sdk.streams` calls in the hook). -/
inductive StoreQuery where
  | totalPublisherDataForSchema (schemaId publisher : Nat)
  | getAtIndex (schemaId publisher index : Nat)
  | getBetweenRange (schemaId publisher start stop : Nat)
  | getLastPublishedDataForSchema (schemaId publisher : Nat)
  deriving DecidableEq, Repr

/-- One bundled call of a subscription: target contract and the query
its calldata encodes (`encodeFunctionData` in the source). -/
structure EthCall where
  target : Nat
  callData : StoreQuery
  deriving DecidableEq, Repr

/-- The argument object of `sdk.streams.subscribe`. -/
structure SubscribeConfig where
  somniaStreamsEventId : EventId
  ethCalls : List EthCall
  onlyPushChanges : Bool
  deriving DecidableEq, Repr

/-- The subscription opened by `setupSubscription`: listen for
`ISSPositionUpdated` and bundle one `getLastPublishedDataForSchema`
read into each notification exchange. -/
def subscriptionConfig (protocolAddress schemaId publisher : Nat) :
    SubscribeConfig :=
  { somniaStreamsEventId := .issPositionUpdated
    ethCalls :=
      [{ target := protocolAddress
         callData := .getLastPublishedDataForSchema schemaId publisher }]
    onlyPushChanges := false }

/-- Payload of one notification event as delivered to `onData`:
`result.simulationResults` holds the returns of the bundled calls
(already unwrapped from their function-result encoding, which is what
`decodeFunctionResult` does deterministically in the source). -/
structure NotifyPayload where
  simulationResults : List (List Nat)
  deriving DecidableEq, Repr

/-- The `onData` handler of the hook, instrumented with the list of
store queries it issues. Translated from the source: guard on a present
first simulation result, guard against empty data, decode, dedupe by
nonce, append-and-truncate, then hand the location to the consumer
callback (the returned `Option`). No branch contains a store call. -/
def onDataStep (payload : NotifyPayload) (trail : List ISSLocation) :
    List StoreQuery × List ISSLocation × Option ISSLocation :=
  match payload.simulationResults.head? with
  | none => ([], trail, none)
  | some raw =>
      if raw.isEmpty then ([], trail, none)
      else
        match decodeISSLocation raw with
        | .error _ => ([], trail, none)
        | .ok loc =>
            if trail.any (fun l => l.nonce == loc.nonce) then ([], trail, none)
            else ([], acceptLocation trail loc, some loc)

/-- The validity filter of `fetchInitialLocations`: drop any decoded
record whose latitude is 0, whose longitude is 0, or whose timestamp is
not positive, before returning the catch-up list. -/
def filterValidLocations (locations : List ISSLocation) : List ISSLocation :=
  locations.filter fun l =>
    decide (l.latitude ≠ 0) && decide (l.longitude ≠ 0) &&
      decide (0 < l.timestamp)

/-! ## Manual trigger (`src/scripts/test-oracle.ts` and the route's
response shape)

The API route returns a JSON body: on success `success: true`, the
transaction hash, the nonce it will use next (`assigned + 1`) and the
position, with HTTP status 200; on failure an error object with a
message and HTTP status 500. The test script fetches the route, prints
a success or failure report, and resolves; it never calls
`process.exit` and never sets `process.exitCode`, and every failure
path is caught (`try`/`catch` plus `main().catch(console.error)`), so
the node process always exits with code 0.
-/

/-- Failure kinds a publish cycle can surface. -/
inductive SyncFailure where
  | nonceQueryFailed
  | feedHttpStatus (status : Nat)
  | feedNotSuccess
  | ledgerCallFailed
  | noTxHash
  deriving DecidableEq, Repr

/-- Outcome of one cycle of the route handler. -/
inductive SyncOutcome where
  | ok (txHash nonce : Nat) (latDeg lonDeg : ℚ) (timestampSec : Nat)
  | failed (kind : SyncFailure)
  deriving DecidableEq, Repr

/-- JSON body of the route's response. -/
inductive RouteBody where
  | success (txHash nonceReported : Nat) (latDeg lonDeg : ℚ)
      (timestampSec : Nat)
  | failure (kind : SyncFailure)
  deriving DecidableEq, Repr

/-- HTTP response of `GET /api/cron/sync-iss` (status, body): the
success body reports `currentNonce + 1` as the next nonce. -/
def syncRouteResponse : SyncOutcome → Nat × RouteBody
  | .ok tx nonce lat lon ts => (200, .success tx (nonce + 1) lat lon ts)
  | .failed kind => (500, .failure kind)

/-- What the test script observes from its `fetch` of the route. -/
inductive FetchOutcome where
  | networkError
  | response (status : Nat) (body : RouteBody)
  deriving DecidableEq, Repr

/-- Observable result of one run of the test script's `main`. -/
structure OracleRunReport where
  printedSuccess : Bool
  printedErrorReport : Bool
  exitCode : Nat
  deriving DecidableEq, Repr

/-- Embedding of `test-oracle.ts`: `response.ok` (HTTP 2xx) selects the
success report, anything else the failure report; the request `catch`
prints the error block. The exit code is 0 on every path because the
script never sets an exit code and `main` always resolves. -/
def testOracleRun : FetchOutcome → OracleRunReport
  | .networkError =>
      { printedSuccess := false, printedErrorReport := true, exitCode := 0 }
  | .response status _ =>
      if 200 ≤ status ∧ status < 300 then
        { printedSuccess := true, printedErrorReport := false, exitCode := 0 }
      else
        { printedSuccess := false, printedErrorReport := true, exitCode := 0 }

theorem sliceLast_append (k : Nat) (xs : List α) (a : α) :
    sliceLast k (sliceLast k xs ++ [a]) = sliceLast k (xs ++ [a]) := by
  unfold sliceLast
  rcases le_or_lt xs.length k with hk | hk
  · rw [Nat.sub_eq_zero_of_le hk, List.drop_zero]
  · have hlen : (xs.drop (xs.length - k)).length = k := by
      rw [List.length_drop]
      omega
    have h1 : (xs.drop (xs.length - k) ++ [a]).length - k = 1 := by
      simp [hlen]
    have h2 : (xs ++ [a]).length - k = (xs.length - k) + 1 := by
      simp only [List.length_append, List.length_cons, List.length_nil]
      omega
    rw [h1, h2, List.drop_append_eq_append_drop, List.drop_append_eq_append_drop]
    rw [List.drop_drop, hlen]
    have h3 : 1 - k = xs.length - k + 1 - xs.length := by omega
    rw [h3]

/-- A trail built by folding `acceptLocation` over records with pairwise
distinct nonces is exactly the last `MAX_TRAIL_LENGTH` of them: the
dedup guard never fires and the bound evicts from the front. -/
theorem foldl_accept_nodup (locs : List ISSLocation)
    (hnd : locs.Pairwise (fun a b => a.nonce ≠ b.nonce)) :
    locs.foldl acceptLocation [] = sliceLast MAX_TRAIL_LENGTH locs := by
  induction locs using List.reverseRecOn with
  | nil => rfl
  | append_singleton init a ih =>
    have hsplit := List.pairwise_append.mp hnd
    have hmem : ∀ x ∈ init, x.nonce ≠ a.nonce := by
      intro x hx
      exact hsplit.2.2 x hx a (by simp)
    rw [List.foldl_append, List.foldl_cons, List.foldl_nil, ih hsplit.1]
    have hany : (sliceLast MAX_TRAIL_LENGTH init).any
        (fun l => l.nonce == a.nonce) = false := by
      rw [List.any_eq_false]
      intro x hx
      have hxi : x ∈ init := List.drop_subset _ _ hx
      simp only [beq_iff_eq]
      exact hmem x hxi
    rw [acceptLocation, hany]
    simp only [Bool.false_eq_true, if_false]
    exact sliceLast_append _ _ _

theorem drop_range_eq (m n : Nat) (h : m ≤ n) :
    (List.range n).drop m = List.range' m (n - m) := by
  rw [List.range_eq_range']
  have hsplit : List.range' 0 n = List.range' 0 m ++ List.range' m (n - m) := by
    have happ := List.range'_append_1 0 m (n - m)
    rw [Nat.zero_add] at happ
    rw [happ]
    congr 1
    omega
  rw [hsplit, List.drop_left' (by simp [List.length_range'])]

/-- A family of records with distinct consecutive sequence numbers, used
to instantiate the bounded-cache scenario. -/
def mkSeqLocation (i : Nat) : ISSLocation :=
  { timestamp := 1700000000000 + i
    latitude := 10
    longitude := 20
    altitude := 408000
    accuracy := 1000
    entityId := ISS_ENTITY_ID
    nonce := i
    velocity := 27600
    visibility := 2 }

theorem trailFold_eq_range (n : Nat) (hn : MAX_TRAIL_LENGTH ≤ n) :
    (((List.range n).map mkSeqLocation).foldl acceptLocation []).map
        ISSLocation.nonce =
      List.range' (n - MAX_TRAIL_LENGTH) MAX_TRAIL_LENGTH := by
  have hnd : ((List.range n).map mkSeqLocation).Pairwise
      (fun a b => a.nonce ≠ b.nonce) := by
    refine List.Pairwise.map mkSeqLocation ?_ (List.pairwise_lt_range n)
    intro a b hab
    simp only [mkSeqLocation]
    omega
  rw [foldl_accept_nodup _ hnd]
  unfold sliceLast
  rw [List.length_map, List.length_range, ← List.map_drop,
    drop_range_eq (n - MAX_TRAIL_LENGTH) n (by omega)]
  have hcount : n - (n - MAX_TRAIL_LENGTH) = MAX_TRAIL_LENGTH := by omega
  rw [hcount, List.map_map]
  have : (ISSLocation.nonce ∘ mkSeqLocation) = id := by
    funext i
    rfl
  rw [this, List.map_id]

theorem decodeISSLocation_encode (f : ISSFields) (hf : ValidFields f) :
    decodeISSLocation (encodeAbiParametersISS f) = .ok (toDomain f) := by
  unfold decodeISSLocation
  have h := decode_encode_extra f hf []
  rw [List.append_nil] at h
  rw [h]
  rfl

theorem length_appendedRecords (ticks : List (TickEnv × Nat)) :
    ∀ k, (appendedRecords k ticks).length = countOk ticks := by
  induction ticks with
  | nil => intro k; rfl
  | cons t rest ih =>
    intro k
    obtain ⟨env, h⟩ := t
    cases env with
    | ok obs =>
      simp only [appendedRecords, List.length_cons, ih, countOk,
        List.countP_cons, tickOk]
      simp
    | countFailed =>
      simp [appendedRecords, ih, countOk, List.countP_cons, tickOk]
    | feedFailed =>
      simp [appendedRecords, ih, countOk, List.countP_cons, tickOk]
    | appendFailed obs =>
      simp [appendedRecords, ih, countOk, List.countP_cons, tickOk]

theorem appendedRecords_decode (obsList : List (Observation × Nat)) :
    ∀ k : Nat,
      (∀ p ∈ obsList, ValidObservation p.1.latDeg p.1.lonDeg p.1.timestampSec) →
      k + obsList.length ≤ 2 ^ 256 →
      ((appendedRecords k (obsList.map fun p => (TickEnv.ok p.1, p.2))).map
          fun r => (decodeISSLocation r).toOption.map ISSLocation.nonce) =
        (List.range' k obsList.length).map some := by
  induction obsList with
  | nil => intro k _ _; simp [appendedRecords]
  | cons p rest ih =>
    intro k hv hb
    obtain ⟨obs, hr⟩ := p
    have hvo : ValidObservation obs.latDeg obs.lonDeg obs.timestampSec :=
      hv (obs, hr) (by simp)
    have hvf : ValidFields
        (issFieldsOf obs.latDeg obs.lonDeg obs.timestampSec k hr) :=
      validFields_issFieldsOf _ _ _ _ _ hvo
        (by simp only [List.length_cons] at hb; omega)
    simp only [List.length_cons] at hb
    simp only [List.map_cons, appendedRecords, List.length_cons]
    rw [List.range'_succ, List.map_cons]
    have hhead : Option.map ISSLocation.nonce
        (decodeISSLocation (encodeISSLocation obs.latDeg obs.lonDeg
          obs.timestampSec k hr)).toOption = some k := by
      rw [encodeISSLocation, decodeISSLocation_encode _ hvf]
      rfl
    have htail := ih (k + 1) (fun q hq => hv q (by simp [hq])) (by omega)
    rw [hhead, htail]

/-! ## Claim theorems -/

/-- C1: every successful publish cycle assigns as nonce exactly the
ledger's record count queried at the start of the cycle — a function of
the ledger state alone, with no in-process counter (so a restart
between cycles cannot change the next assigned sequence) — and after
`N` successful cycles from an empty ledger the published sequence
numbers, and the nonces stored in the appended records themselves, are
exactly `0, 1, ..., N - 1`. -/
theorem syncISS_nonce_eq_ledger_count
    (obsList : List (Observation × Nat))
    (hv : ∀ p ∈ obsList, ValidObservation p.1.latDeg p.1.lonDeg p.1.timestampSec)
    (hlen : obsList.length ≤ 2 ^ 256) :
    (∀ (st : LedgerState) (obs : Observation) (h : Nat),
        (syncISS st (.ok obs) h).2 = some st.records.length) ∧
      (runTicks emptyLedger (obsList.map fun p => (TickEnv.ok p.1, p.2))).2 =
        List.range obsList.length ∧
      ((runTicks emptyLedger (obsList.map fun p => (TickEnv.ok p.1, p.2))).1.records.map
          fun r => Option.map ISSLocation.nonce (decodeISSLocation r).toOption) =
        (List.range obsList.length).map some := by
  have hcount : countOk (obsList.map fun p => (TickEnv.ok p.1, p.2)) =
      obsList.length := by
    simp [countOk, List.countP_map, tickOk, Function.comp]
  refine ⟨fun st obs h => rfl, ?_, ?_⟩
  · rw [runTicks_characterisation, List.range_eq_range']
    simp [emptyLedger, hcount]
  · rw [runTicks_characterisation]
    simp only [emptyLedger, List.length_nil, List.nil_append]
    rw [appendedRecords_decode obsList 0 hv (by omega), List.range_eq_range']

/-- C1 witness: two valid observations published from an empty ledger
yield sequences 0 and 1, assigned from the ledger count. -/
theorem syncISS_nonce_eq_ledger_count_witness :
    (∀ p ∈ [((⟨10, 20, 1700000000⟩ : Observation), 5),
        ((⟨-30, 40, 1700000005⟩ : Observation), 6)],
      ValidObservation p.1.latDeg p.1.lonDeg p.1.timestampSec) ∧
    ([((⟨10, 20, 1700000000⟩ : Observation), 5),
        ((⟨-30, 40, 1700000005⟩ : Observation), 6)].length ≤ 2 ^ 256) ∧
    ((∀ (st : LedgerState) (obs : Observation) (h : Nat),
        (syncISS st (.ok obs) h).2 = some st.records.length) ∧
      (runTicks emptyLedger ([((⟨10, 20, 1700000000⟩ : Observation), 5),
          ((⟨-30, 40, 1700000005⟩ : Observation), 6)].map
            fun p => (TickEnv.ok p.1, p.2))).2 =
        List.range 2 ∧
      ((runTicks emptyLedger ([((⟨10, 20, 1700000000⟩ : Observation), 5),
          ((⟨-30, 40, 1700000005⟩ : Observation), 6)].map
            fun p => (TickEnv.ok p.1, p.2))).1.records.map
          fun r => Option.map ISSLocation.nonce (decodeISSLocation r).toOption) =
        (List.range 2).map some) :=
  ⟨by decide, by decide,
    syncISS_nonce_eq_ledger_count _ (by decide) (by decide)⟩

/-- C2: the codec byte transform is an exact inverse pair on valid
field tuples — decoding the encoding returns the identical nine-field
tuple, for sequence numbers up to the full 256-bit range and
coordinates at the scaled extrema — and the encoding is injective on
valid tuples. -/
theorem decode_encode_roundtrip (f : ISSFields) (hf : ValidFields f) :
    decodeAbiParametersISS (encodeAbiParametersISS f) = .ok f ∧
      ∀ g : ISSFields, ValidFields g →
        encodeAbiParametersISS f = encodeAbiParametersISS g → f = g := by
  have h := decode_encode_extra f hf []
  rw [List.append_nil] at h
  refine ⟨h, ?_⟩
  intro g hg heq
  have h2 := decode_encode_extra g hg []
  rw [List.append_nil] at h2
  rw [heq] at h
  have := h.symm.trans h2
  simpa using this

/-- C2 witness: round trip at the documented extrema — latitude
-90,000,000, longitude 180,000,000, and the maximal 256-bit sequence
number. -/
theorem decode_encode_roundtrip_witness :
    ValidFields ⟨1700000000000, -90000000, 180000000, 408000, 1000,
      ISS_ENTITY_ID, 2 ^ 256 - 1, 27600, 3⟩ ∧
    (decodeAbiParametersISS (encodeAbiParametersISS
        ⟨1700000000000, -90000000, 180000000, 408000, 1000,
          ISS_ENTITY_ID, 2 ^ 256 - 1, 27600, 3⟩) =
      .ok ⟨1700000000000, -90000000, 180000000, 408000, 1000,
          ISS_ENTITY_ID, 2 ^ 256 - 1, 27600, 3⟩ ∧
      ∀ g : ISSFields, ValidFields g →
        encodeAbiParametersISS ⟨1700000000000, -90000000, 180000000, 408000,
            1000, ISS_ENTITY_ID, 2 ^ 256 - 1, 27600, 3⟩ =
          encodeAbiParametersISS g →
        (⟨1700000000000, -90000000, 180000000, 408000, 1000,
          ISS_ENTITY_ID, 2 ^ 256 - 1, 27600, 3⟩ : ISSFields) = g) :=
  ⟨by decide, decode_encode_roundtrip _ (by decide)⟩

/-- C3: the publisher's only write is the combined append-and-notify
step of `syncISS` (`setAndEmitEvents`), so in every reachable ledger
state the records and their notifications are exactly paired: the event
log is one `ISSPositionUpdated` marker per stored record — no record
without its notification and no notification without its record. -/
theorem reachable_records_paired_with_events (st : LedgerState)
    (hr : Reachable st) :
    st.events = List.replicate st.records.length EventId.issPositionUpdated := by
  induction hr with
  | init => rfl
  | tick st' env h _ ih =>
    cases env with
    | ok obs =>
      simp only [syncISS, List.length_append, List.length_cons, List.length_nil]
      rw [ih, ← List.replicate_succ']
    | countFailed => simpa [syncISS] using ih
    | feedFailed => simpa [syncISS] using ih
    | appendFailed obs => simpa [syncISS] using ih

/-- C3 witness: the state after one successful cycle and one failed
tick from the empty ledger has its single record paired with its single
notification. -/
theorem reachable_records_paired_with_events_witness :
    Reachable (syncISS (syncISS emptyLedger
        (.ok ⟨10, 20, 1700000000⟩) 5).1 .feedFailed 7).1 ∧
      (syncISS (syncISS emptyLedger (.ok ⟨10, 20, 1700000000⟩) 5).1
          .feedFailed 7).1.events =
        List.replicate (syncISS (syncISS emptyLedger
            (.ok ⟨10, 20, 1700000000⟩) 5).1 .feedFailed 7).1.records.length
          EventId.issPositionUpdated :=
  ⟨.tick _ _ _ (.tick _ _ _ .init),
    reachable_records_paired_with_events _ (.tick _ _ _ (.tick _ _ _ .init))⟩

/-- C4: a failed tick (count query, feed fetch, or append) leaves the
ledger unchanged and publishes nothing — the cycle's `catch` swallows
the failure, with no retry inside the tick — and over any schedule the
published sequence numbers are exactly `0, 1, ..., successes - 1`:
failed ticks contribute no sequence number and leave no gap. -/
theorem failed_tick_skipped_sequences_gapless :
    (∀ (st : LedgerState) (env : TickEnv) (h : Nat), tickOk env = false →
        syncISS st env h = (st, none)) ∧
      ∀ ticks : List (TickEnv × Nat),
        (runTicks emptyLedger ticks).2 = List.range' 0 (countOk ticks) ∧
        (runTicks emptyLedger ticks).1.records.length = countOk ticks := by
  refine ⟨syncISS_failure, fun ticks => ?_⟩
  rw [runTicks_characterisation]
  constructor
  · rfl
  · simp [emptyLedger, length_appendedRecords]

/-- C4 witness: the five-tick scenario of the spec — feed fetch fails
on tick 3 of 5; the surviving ticks publish sequences 0, 1, 2, 3. -/
theorem failed_tick_skipped_sequences_gapless_witness :
    tickOk TickEnv.feedFailed = false ∧
      syncISS emptyLedger TickEnv.feedFailed 12 = (emptyLedger, none) ∧
      (runTicks emptyLedger
          [(TickEnv.ok ⟨10, 20, 1700000000⟩, 1),
            (TickEnv.ok ⟨11, 21, 1700000005⟩, 2),
            (TickEnv.feedFailed, 3),
            (TickEnv.ok ⟨12, 22, 1700000015⟩, 4),
            (TickEnv.ok ⟨13, 23, 1700000020⟩, 5)]).2 = [0, 1, 2, 3] := by
  refine ⟨rfl, failed_tick_skipped_sequences_gapless.1 _ _ 12 rfl, ?_⟩
  have h := (failed_tick_skipped_sequences_gapless.2
    [(TickEnv.ok ⟨10, 20, 1700000000⟩, 1),
      (TickEnv.ok ⟨11, 21, 1700000005⟩, 2),
      (TickEnv.feedFailed, 3),
      (TickEnv.ok ⟨12, 22, 1700000015⟩, 4),
      (TickEnv.ok ⟨13, 23, 1700000020⟩, 5)]).1
  rw [h]
  decide

/-- C5: the trail-cache accept step is a no-op when the record's
sequence number is already present; otherwise it appends and keeps only
the last 100 entries — so pushing `capacity + 5` distinct sequential
records into an empty cache leaves exactly 100 entries holding the 100
highest sequence numbers. -/
theorem acceptLocation_dedup_bounded :
    (∀ (trail : List ISSLocation) (loc : ISSLocation),
        (∃ l ∈ trail, l.nonce = loc.nonce) → acceptLocation trail loc = trail) ∧
      ∀ n : Nat, MAX_TRAIL_LENGTH ≤ n →
        (((List.range n).map mkSeqLocation).foldl acceptLocation []).length =
            MAX_TRAIL_LENGTH ∧
          (((List.range n).map mkSeqLocation).foldl acceptLocation []).map
              ISSLocation.nonce =
            List.range' (n - MAX_TRAIL_LENGTH) MAX_TRAIL_LENGTH := by
  constructor
  · rintro trail loc ⟨l, hl, he⟩
    rw [acceptLocation, if_pos]
    rw [List.any_eq_true]
    exact ⟨l, hl, by simp [he]⟩
  · intro n hn
    have h := trailFold_eq_range n hn
    refine ⟨?_, h⟩
    have hlen := congrArg List.length h
    simpa using hlen

/-- C5 witness: a duplicate nonce leaves the cache unchanged, and
pushing 105 sequential records into an empty capacity-100 cache leaves
the 100 highest sequence numbers. -/
theorem acceptLocation_dedup_bounded_witness :
    (∃ l ∈ [mkSeqLocation 7], l.nonce = (mkSeqLocation 7).nonce) ∧
      acceptLocation [mkSeqLocation 7] (mkSeqLocation 7) = [mkSeqLocation 7] ∧
      MAX_TRAIL_LENGTH ≤ 105 ∧
      ((((List.range 105).map mkSeqLocation).foldl acceptLocation []).length =
          MAX_TRAIL_LENGTH ∧
        (((List.range 105).map mkSeqLocation).foldl acceptLocation []).map
            ISSLocation.nonce =
          List.range' (105 - MAX_TRAIL_LENGTH) MAX_TRAIL_LENGTH) :=
  ⟨⟨mkSeqLocation 7, by simp, rfl⟩,
    acceptLocation_dedup_bounded.1 _ _ ⟨mkSeqLocation 7, by simp, rfl⟩,
    by decide,
    acceptLocation_dedup_bounded.2 105 (by decide)⟩

/-- C6: the subscription is opened with exactly one bundled read — the
store-side `getLastPublishedDataForSchema` latest-record call carried in
the notification exchange itself — and the `onData` handler issues no
store query of its own on any path before handing the decoded record to
the consumer callback. -/
theorem subscription_single_bundled_read :
    (∀ protocolAddress schemaId publisher : Nat,
        (subscriptionConfig protocolAddress schemaId publisher).ethCalls =
          [{ target := protocolAddress
             callData := .getLastPublishedDataForSchema schemaId publisher }] ∧
        (subscriptionConfig protocolAddress schemaId publisher).ethCalls.length
          = 1) ∧
      ∀ (payload : NotifyPayload) (trail : List ISSLocation),
        (onDataStep payload trail).1 = [] := by
  refine ⟨fun a s p => ⟨rfl, rfl⟩, fun payload trail => ?_⟩
  unfold onDataStep
  cases payload.simulationResults.head? with
  | none => rfl
  | some raw =>
    dsimp only
    split
    · rfl
    · split
      · rfl
      · split
        · rfl
        · rfl

/-- C7 counterexample to the claim as stated: a 320-byte input — a
valid 288-byte record followed by 32 trailing bytes — has the wrong
total length yet decodes successfully, because the ABI decoder reads
the nine slots at fixed offsets and never inspects trailing data. -/
theorem decode_accepts_overlong_input :
    ((encodeAbiParametersISS ⟨1, 2, 3, 4, 5, 6, 7, 8, 9⟩ ++
        natToBytesBE 0 32).length ≠ EXPECTED_RECORD_BYTES) ∧
      decodeAbiParametersISS (encodeAbiParametersISS ⟨1, 2, 3, 4, 5, 6, 7, 8, 9⟩
          ++ natToBytesBE 0 32) =
        .ok ⟨1, 2, 3, 4, 5, 6, 7, 8, 9⟩ :=
  ⟨by simp [length_encodeAbiParametersISS, length_natToBytesBE,
      EXPECTED_RECORD_BYTES],
    decode_encode_extra _ (by decide) _⟩

/-- C7 amended: every byte string SHORTER than the fixed 288-byte record
size fails to decode with `MalformedRecordError` and never yields a
record, partially populated or otherwise; inputs of length 288 or more
decode from their first 288 bytes, with trailing data ignored. -/
theorem decode_short_input_malformed (bs : List Nat)
    (h : bs.length < EXPECTED_RECORD_BYTES) :
    decodeAbiParametersISS bs = .error .malformedRecord ∧
      ∀ f : ISSFields, decodeAbiParametersISS bs ≠ .ok f := by
  unfold decodeAbiParametersISS
  rw [if_pos h]
  exact ⟨rfl, fun f h2 => Except.noConfusion h2⟩

/-- C7 amended witness: a three-byte input is rejected as malformed. -/
theorem decode_short_input_malformed_witness :
    ([(0 : Nat), 1, 2].length < EXPECTED_RECORD_BYTES) ∧
      (decodeAbiParametersISS [0, 1, 2] = .error .malformedRecord ∧
        ∀ f : ISSFields, decodeAbiParametersISS [0, 1, 2] ≠ .ok f) :=
  ⟨by decide, decode_short_input_malformed [0, 1, 2] (by decide)⟩

/-- C8 counterexample to the claim as stated: when the publish cycle
fails (here: the feed's non-success sentinel) the route responds with
HTTP 500, yet the manual-trigger script's process exit code is 0 — the
script prints the failure report but never sets a non-zero exit code. -/
theorem testOracle_exit_zero_on_failure :
    (testOracleRun (.response
        (syncRouteResponse (.failed .feedNotSuccess)).1
        (syncRouteResponse (.failed .feedNotSuccess)).2)).exitCode = 0 := by
  decide

/-- C8 amended: a manual-trigger invocation returns a structured
success/failure result — HTTP 200 with `success: true`, the transaction
hash and the reported nonce on success, HTTP 500 with an error message
on any failure — and the trigger script prints an error report on every
failure, but its process exit code is 0 on every outcome, success or
failure. -/
theorem manual_trigger_structured_result :
    (∀ (tx nonce : Nat) (lat lon : ℚ) (ts : Nat),
        syncRouteResponse (.ok tx nonce lat lon ts) =
          (200, .success tx (nonce + 1) lat lon ts)) ∧
      (∀ kind : SyncFailure,
        syncRouteResponse (.failed kind) = (500, .failure kind)) ∧
      (∀ r : FetchOutcome, (testOracleRun r).exitCode = 0) ∧
      ∀ (status : Nat) (body : RouteBody), ¬(200 ≤ status ∧ status < 300) →
        (testOracleRun (.response status body)).printedErrorReport = true := by
  refine ⟨fun _ _ _ _ _ => rfl, fun _ => rfl, ?_, ?_⟩
  · intro r
    cases r with
    | networkError => rfl
    | response status body =>
      simp only [testOracleRun]
      split <;> rfl
  · intro status body hfail
    simp only [testOracleRun]
    rw [if_neg hfail]

/-- C8 amended witness: a 500 response produces the printed failure
report, and a network error still exits 0. -/
theorem manual_trigger_structured_result_witness :
    (¬(200 ≤ 500 ∧ 500 < 300)) ∧
      (testOracleRun (.response 500
          (.failure .ledgerCallFailed))).printedErrorReport = true ∧
      (testOracleRun .networkError).exitCode = 0 :=
  ⟨by decide,
    manual_trigger_structured_result.2.2.2 500 (.failure .ledgerCallFailed)
      (by decide),
    manual_trigger_structured_result.2.2.1 .networkError⟩

/-- C9: the visibility computation returns only 2 (day side) or 3
(night side), never 0 or 1, for every input; the visibility stored by
the encoder is exactly `calculateVisibility` of the coordinates and the
current wall-clock hour, unchanged under any change of the capture
timestamp; and it genuinely depends on the clock hour. -/
theorem visibility_day_or_night_only :
    (∀ (lat lon : ℚ) (hourUTC : Nat),
        calculateVisibility lat lon hourUTC = 2 ∨
          calculateVisibility lat lon hourUTC = 3) ∧
      (∀ (latDeg lonDeg : ℚ) (s nonce hourUTC : Nat),
        (issFieldsOf latDeg lonDeg s nonce hourUTC).visibility =
          calculateVisibility latDeg lonDeg hourUTC) ∧
      (∀ (latDeg lonDeg : ℚ) (s₁ s₂ nonce hourUTC : Nat),
        (issFieldsOf latDeg lonDeg s₁ nonce hourUTC).visibility =
          (issFieldsOf latDeg lonDeg s₂ nonce hourUTC).visibility) ∧
      ∃ (lat lon : ℚ) (h₁ h₂ : Nat),
        calculateVisibility lat lon h₁ ≠ calculateVisibility lat lon h₂ := by
  refine ⟨calculateVisibility_cases, fun _ _ _ _ _ => rfl,
    fun _ _ _ _ _ _ => rfl, 0, 0, 12, 0, ?_⟩
  have h1 : calculateVisibility 0 0 12 = 2 := by
    norm_num [calculateVisibility]
  have h2 : calculateVisibility 0 0 0 = 3 := by
    norm_num [calculateVisibility, abs_of_nonneg]
  rw [h1, h2]
  decide

/-- C10: the history catch-up filter keeps a decoded record exactly
when its latitude and longitude are nonzero and its timestamp positive
— so any record with latitude 0 (the equator), longitude 0 (the prime
meridian), or timestamp 0 is silently discarded from the returned
list. -/
theorem catchup_filter_drops_zero_coordinates :
    (∀ (locations : List ISSLocation) (l : ISSLocation),
        l ∈ filterValidLocations locations ↔
          l ∈ locations ∧ l.latitude ≠ 0 ∧ l.longitude ≠ 0 ∧
            0 < l.timestamp) ∧
      ∀ (locations : List ISSLocation) (l : ISSLocation),
        (l.latitude = 0 ∨ l.longitude = 0 ∨ l.timestamp = 0) →
          l ∉ filterValidLocations locations := by
  constructor
  · intro locations l
    constructor
    · intro h
      have hm := List.mem_filter.mp h
      have hp := hm.2
      simp only [Bool.and_eq_true, decide_eq_true_eq] at hp
      exact ⟨hm.1, hp.1.1, hp.1.2, hp.2⟩
    · rintro ⟨h1, h2, h3, h4⟩
      refine List.mem_filter.mpr ⟨h1, ?_⟩
      simp only [Bool.and_eq_true, decide_eq_true_eq]
      exact ⟨⟨h2, h3⟩, h4⟩
  · intro locations l hl hmem
    have hp := (List.mem_filter.mp hmem).2
    simp only [Bool.and_eq_true, decide_eq_true_eq] at hp
    rcases hl with h | h | h
    · exact hp.1.1 h
    · exact hp.1.2 h
    · omega

/-- C10 witness: a genuine equator observation — latitude exactly 0,
valid longitude and timestamp — is excluded from the catch-up result
even when it is the only stored record. -/
theorem catchup_filter_drops_zero_coordinates_witness :
    ((⟨1700000000000, 0, 50, 408000, 1000, ISS_ENTITY_ID, 3, 27600,
        2⟩ : ISSLocation).latitude = 0 ∨
      (⟨1700000000000, 0, 50, 408000, 1000, ISS_ENTITY_ID, 3, 27600,
        2⟩ : ISSLocation).longitude = 0 ∨
      (⟨1700000000000, 0, 50, 408000, 1000, ISS_ENTITY_ID, 3, 27600,
        2⟩ : ISSLocation).timestamp = 0) ∧
      (⟨1700000000000, 0, 50, 408000, 1000, ISS_ENTITY_ID, 3, 27600,
        2⟩ : ISSLocation) ∉
        filterValidLocations
          [⟨1700000000000, 0, 50, 408000, 1000, ISS_ENTITY_ID, 3, 27600, 2⟩] :=
  ⟨Or.inl rfl,
    catchup_filter_drops_zero_coordinates.2 _ _ (Or.inl rfl)⟩

end ISSTracker
